import Mathlib

/-!
Verification of the Recursive Distill analysis & scoring engine
(`coherence.scripts.js`): the coherence scorer, the attribution graph
builder, the residue classifier and the trend reporter are shallowly
embedded as executable Lean definitions, and the specified properties are
proved or refuted against that embedding.

Modelling conventions:
* JavaScript numbers are modelled by exact rationals (`ℚ`); the overall
  coherence combination, which uses a fractional power, lives in `ℝ`.
* External data sources (GitHub API, `git` subprocess) are modelled as
  `Option` inputs: `none` is a failed fetch (the `catch` path of the
  script), `some d` is a successful fetch returning `d`.
* JavaScript regular expressions used by the scripts are modelled
  character-exactly on `List Char`, including the statefulness of
  `RegExp.test` for regexes carrying the `g` flag (`lastIndex`).
-/

namespace RecursiveDistill

/-- Word characters in the sense of the JavaScript regex class `\w`,
i.e. `[A-Za-z0-9_]`. -/
def isWordChar (c : Char) : Bool :=
  c.isAlphanum || c == '_'

/-- Whether position `i` of `s` holds a word character (out of range
counts as a non-word position, as in JavaScript `\b` semantics). -/
def wordAtPos (s : List Char) (i : Nat) : Bool :=
  match s.get? i with
  | some c => isWordChar c
  | none => false

/-- The JavaScript word-boundary assertion `\b` at position `i` of `s`:
exactly one of the two adjacent positions holds a word character. -/
def boundaryAt (s : List Char) (i : Nat) : Bool :=
  match i with
  | 0 => wordAtPos s 0
  | j + 1 => wordAtPos s j != wordAtPos s (j + 1)

/-- Try to match the literal word `w` at position `p` of `s`, requiring
the closing `\b` after it; returns the match length on success.  (The
opening `\b` is checked once per position in `matchWordsAt`.) -/
def tryWordAt (s : List Char) (p : Nat) (w : List Char) : Option Nat :=
  if w.isPrefixOf (s.drop p) && boundaryAt s (p + w.length) then some w.length
  else none

/-- Match the regex `\b(w1|w2|...)\b` at position `p` of `s`: the
alternatives are tried in order (the list is given in the backtracking
order of the original pattern), the first that matches with a closing
`\b` wins.  Returns the match length. -/
def matchWordsAt (words : List (List Char)) (s : List Char) (p : Nat) : Option Nat :=
  if boundaryAt s p then words.findSome? (tryWordAt s p) else none

/-- Leftmost match of `\b(w1|...)\b` in `s` at a position `≥ start`:
returns `(position, length)` of the first match, scanning positions in
increasing order exactly as the JavaScript regex engine does. -/
def searchWords (words : List (List Char)) (s : List Char) (start : Nat) :
    Option (Nat × Nat) :=
  (List.range (s.length + 1)).findSome? fun p =>
    if p < start then none
    else (matchWordsAt words s p).map fun len => (p, len)

/-- One call of `re.test(s)` for a case-insensitive *global* (`g`-flag)
word-alternation regex, threading `lastIndex` exactly as JavaScript
does: on success the search starts at `lastIndex` and `lastIndex` is
advanced past the match; on failure `lastIndex` is reset to `0`. -/
def jsGlobalWordTest (words : List (List Char)) (lastIndex : Nat) (s : List Char) :
    Bool × Nat :=
  match searchWords words (s.map Char.toLower) lastIndex with
  | some (p, len) => (true, p + len)
  | none => (false, 0)

/-- Stateless test of a case-insensitive word-alternation regex (no `g`
flag): does `\b(w1|...)\b` match anywhere in `s`? -/
def wordTest (words : List (List Char)) (s : List Char) : Bool :=
  (searchWords words (s.map Char.toLower) 0).isSome

/-- Scan for the closing bracket of a citation marker: after the opening
`[^`, the class `[^\]]+` must consume at least one character before the
first `]`.  `n` counts the characters consumed so far. -/
def citeClose : List Char → Nat → Bool
  | [], _ => false
  | ']' :: _, n => 0 < n
  | _ :: rest, n => citeClose rest (n + 1)

/-- Fuel-indexed scan for `containsCitation`; every step consumes at
least one character, so any fuel above the text length is sufficient.
(The fuel makes the recursion structural, hence kernel-reducible.) -/
def containsCitationF : Nat → List Char → Bool
  | 0, _ => false
  | _ + 1, [] => false
  | fuel + 1, '[' :: '^' :: rest => citeClose rest 0 || containsCitationF fuel ('^' :: rest)
  | fuel + 1, _ :: rest => containsCitationF fuel rest

/-- The stateless test `/\[\^[^\]]+\]/.test(s)`: does `s` contain a
markdown citation marker `[^...]`? -/
def containsCitation (s : List Char) : Bool :=
  containsCitationF (s.length + 1) s

/-- Length of `dropWhile` never exceeds the length of the input list. -/
theorem dropWhileLenLe {α : Type} (p : α → Bool) :
    ∀ l : List α, (l.dropWhile p).length ≤ l.length := by
  intro l
  induction l with
  | nil => simp [List.dropWhile]
  | cons c rest ih =>
    simp only [List.dropWhile]
    split
    · exact Nat.le_trans ih (by simp)
    · simp

/-- After the opening `[^` of a candidate citation marker, consume
`[^\]]+\]`: returns the remainder of the text after the closing `]`, or
`none` when the marker does not close.  `n` counts characters consumed
by the class so far. -/
def citeSpanAux : List Char → Nat → Option (List Char)
  | [], _ => none
  | c :: rest, n =>
    if c == ']' then (if 0 < n then some rest else none)
    else citeSpanAux rest (n + 1)

theorem citeSpanAux_length :
    ∀ (l : List Char) (n : Nat) (rem : List Char),
      citeSpanAux l n = some rem → rem.length < l.length := by
  intro l
  induction l with
  | nil => intro n rem h; simp [citeSpanAux] at h
  | cons c rest ih =>
    intro n rem h
    simp only [citeSpanAux] at h
    by_cases hc : c == ']'
    · simp only [hc, if_true] at h
      by_cases hn : 0 < n
      · simp [hn] at h; subst h; simp
      · simp [hn] at h
    · simp only [hc, if_false] at h
      exact Nat.lt_trans (ih (n + 1) rem h) (by simp)

/-- Fuel-indexed scan for `countCites`; every step consumes at least one
character (`citeSpanAux_length`), so any fuel above the text length is
sufficient. -/
def countCitesF : Nat → List Char → Nat
  | 0, _ => 0
  | _ + 1, [] => 0
  | fuel + 1, '[' :: '^' :: rest =>
    match citeSpanAux rest 0 with
    | some rem => 1 + countCitesF fuel rem
    | none => countCitesF fuel ('^' :: rest)
  | fuel + 1, _ :: rest => countCitesF fuel rest

/-- Count the matches of the global regex `/\[\^[^\]]+\]/g` in a text,
advancing past each match exactly as `String.match` with a `g` flag
does (matches are non-overlapping, leftmost-first). -/
def countCites (s : List Char) : Nat :=
  countCitesF (s.length + 1) s

/-- Fuel-indexed splitter on the regex `/\.\s+/`: a delimiter is a dot
followed by a maximal nonempty run of whitespace; `acc` holds the
current piece in reverse.  Every step consumes at least one character,
so any fuel above the text length is sufficient. -/
def splitSentencesAux : Nat → List Char → List Char → List (List Char)
  | 0, l, acc => [(acc.reverse ++ l)]
  | _ + 1, [], acc => [acc.reverse]
  | fuel + 1, '.' :: c :: rest, acc =>
    if c.isWhitespace then
      acc.reverse :: splitSentencesAux fuel (rest.dropWhile Char.isWhitespace) []
    else
      splitSentencesAux fuel (c :: rest) ('.' :: acc)
  | _ + 1, ['.'], acc => [('.' :: acc).reverse]
  | fuel + 1, c :: rest, acc => splitSentencesAux fuel rest (c :: acc)

/-- `content.split(/\.\s+/)`, the sentence splitter of the scorer. -/
def splitSentences (s : List Char) : List (List Char) :=
  splitSentencesAux (s.length + 1) s []

/-- Split on the literal string `"\n\n"` as JavaScript
`content.split('\n\n')` does (leftmost, non-overlapping). -/
def splitParasAux : List Char → List Char → List (List Char)
  | [], acc => [acc.reverse]
  | '\n' :: '\n' :: rest, acc => acc.reverse :: splitParasAux rest []
  | c :: rest, acc => splitParasAux rest (c :: acc)

/-- `content.split('\n\n')`, the paragraph splitter of the scorer. -/
def splitParas (s : List Char) : List (List Char) :=
  splitParasAux s []

/-- Fuel-indexed splitter on the regex `/\s+/`: a delimiter is a maximal
nonempty run of whitespace characters.  Every step consumes at least one
character, so any fuel above the text length is sufficient. -/
def splitWsAux : Nat → List Char → List Char → List (List Char)
  | 0, l, acc => [(acc.reverse ++ l)]
  | _ + 1, [], acc => [acc.reverse]
  | fuel + 1, c :: rest, acc =>
    if c.isWhitespace then
      acc.reverse :: splitWsAux fuel (rest.dropWhile Char.isWhitespace) []
    else
      splitWsAux fuel rest (c :: acc)

/-- `text.split(/\s+/)`, used by the scope extractor. -/
def splitWs (s : List Char) : List (List Char) :=
  splitWsAux (s.length + 1) s []

/-- Maximal runs of word characters, a model of the external
`natural.WordTokenizer` used by `extractTopics` (the library splits text
on runs of non-alphanumeric characters and drops empty tokens). -/
def tokenizeAux : List Char → List Char → List (List Char)
  | [], acc => if acc.isEmpty then [] else [acc.reverse]
  | c :: rest, acc =>
    if isWordChar c then tokenizeAux rest (c :: acc)
    else if acc.isEmpty then tokenizeAux rest []
    else acc.reverse :: tokenizeAux rest []

/-- Tokenize a text into words (model of `natural.WordTokenizer`). -/
def tokenizeWords (s : List Char) : List (List Char) :=
  tokenizeAux s []

/-- Substring test, a model of JavaScript `String.prototype.includes`. -/
def containsSub (pat : List Char) : List Char → Bool
  | [] => pat.isEmpty
  | c :: rest => pat.isPrefixOf (c :: rest) || containsSub pat rest

/-! ## Signal alignment: citations and unsupported claims -/

/-- Result record of `analyzeArticleCitations`. -/
structure CitationAnalysis where
  citations : Nat
  paragraphs : Nat
  density : ℚ
  score : ℚ
deriving DecidableEq, Repr

/-- The citation-marker count accumulated by `analyzeArticleCitations`
over all articles (`articles.reduce` with the `/\[\^[^\]]+\]/g` count). -/
def totalCitationsOf (articles : List String) : Nat :=
  (articles.map fun a => countCites a.toList).sum

/-- The paragraph count accumulated by `analyzeArticleCitations` over
all articles (`content.split('\n\n').length` summed). -/
def totalParagraphsOf (articles : List String) : Nat :=
  (articles.map fun a => (splitParas a.toList).length).sum

/-- `analyzeArticleCitations` from `coherence.scripts.js`: counts markdown
citation markers `[^...]` across all articles, counts paragraphs
(`split('\n\n')` pieces), takes `density = citations / paragraphs`
(`0` when there are no paragraphs), scores `min(1, density / 0.5)` and
clamps the result into `[0, 1]`. -/
def analyzeArticleCitations (articles : List String) : CitationAnalysis :=
  let totalCitations := totalCitationsOf articles
  let totalParagraphs := totalParagraphsOf articles
  let density : ℚ := if 0 < totalParagraphs then (totalCitations : ℚ) / totalParagraphs else 0
  let score : ℚ := min 1 (density / 0.5)
  { citations := totalCitations
    paragraphs := totalParagraphs
    density := density
    score := max 0 (min 1 score) }

/-- The alternatives of the claim-indicator regex
`\b(show[s]?|demonstrate[s]?|prove[s]?|evidence|find(ing)?[s]?|suggest[s]?|indicate[s]?|reveal[s]?|establish(es|ed)?|confirm[s]?|conclude[s]?)\b`,
expanded into literal words in the engine's backtracking order
(alternatives in declaration order, greedy optional suffixes first). -/
def claimWords : List (List Char) :=
  ["shows", "show", "demonstrates", "demonstrate", "proves", "prove",
   "evidence", "findings", "finding", "finds", "find", "suggests",
   "suggest", "indicates", "indicate", "reveals", "reveal",
   "establishes", "established", "establish", "confirms", "confirm",
   "concludes", "conclude"].map String.toList

/-- Result record of `findUnsupportedClaims`. -/
structure ClaimsAnalysis where
  totalClaims : Nat
  unsupportedClaims : Nat
  score : ℚ
deriving DecidableEq, Repr

/-- One iteration of the `sentences.forEach` loop of
`findUnsupportedClaims`.  The running state is
`(lastIndex, totalClaims, unsupportedCount)`.  The claim test is
`claimRegex.test(sentence)` where `claimRegex` carries the `g` flag, so
`lastIndex` persists between sentences; the citation check tests the
sentence itself or `sentences[sentences.indexOf(sentence) + 1]` (the
sentence after the *first* occurrence of an equal sentence). -/
def claimSentenceStep (sentences : List (List Char)) (st : Nat × Nat × Nat)
    (sentence : List Char) : Nat × Nat × Nat :=
  let t := jsGlobalWordTest claimWords st.1 sentence
  if t.1 then
    let hasCitation := containsCitation sentence ||
      (match sentences.get? (sentences.indexOf sentence + 1) with
       | some next => containsCitation next
       | none => false)
    (t.2, st.2.1 + 1, if hasCitation then st.2.2 else st.2.2 + 1)
  else
    (t.2, st.2.1, st.2.2)

/-- The counting loop of `findUnsupportedClaims` from
`coherence.scripts.js`: splits each article into sentences on `/\.\s+/`
and folds `claimSentenceStep` over them.  The single `claimRegex`
object — hence its `lastIndex` — is shared across all sentences of all
articles, so the state threads through the whole fold.  Returns
`(lastIndex, totalClaims, unsupportedCount)`. -/
def findUnsupportedClaimsCounts (articles : List String) : Nat × Nat × Nat :=
  articles.foldl
    (fun st article =>
      let sentences := splitSentences article.toList
      sentences.foldl (claimSentenceStep sentences) st)
    (0, 0, 0)

/-- `findUnsupportedClaims` from `coherence.scripts.js`: counts claim
sentences and unsupported claim sentences (see
`findUnsupportedClaimsCounts`) and scores
`1 - min(1, unsupportedRate * 2)` clamped into `[0, 1]`. -/
def findUnsupportedClaims (articles : List String) : ClaimsAnalysis :=
  let final := findUnsupportedClaimsCounts articles
  let totalClaims := final.2.1
  let unsupportedCount := final.2.2
  let unsupportedRate : ℚ := if 0 < totalClaims then (unsupportedCount : ℚ) / totalClaims else 0
  let score : ℚ := 1 - min 1 (unsupportedRate * 2)
  { totalClaims := totalClaims
    unsupportedClaims := unsupportedCount
    score := max 0 (min 1 score) }

/-- The unsupported-claims rule as documented (spec §4.1 and the inline
comments of `findUnsupportedClaims`): a sentence is a claim exactly when
it contains a word of the assertion-verb lexicon; a claim is supported
exactly when that sentence or the immediately following sentence
contains a citation marker; the score is `1 - min(1, 2 * unsupportedRate)`.
This definition follows the documented rule, for comparison with the
code model above. -/
def perSentenceRuleCounts (articles : List String) : Nat × Nat :=
  articles.foldl
    (fun (st : Nat × Nat) article =>
      let sentences := splitSentences article.toList
      (List.range sentences.length).foldl
        (fun (st : Nat × Nat) i =>
          match sentences.get? i with
          | none => st
          | some sentence =>
            if wordTest claimWords sentence then
              let hasCitation := containsCitation sentence ||
                (match sentences.get? (i + 1) with
                 | some next => containsCitation next
                 | none => false)
              (st.1 + 1, if hasCitation then st.2 else st.2 + 1)
            else st)
        st)
    (0, 0)

/-- The unsupported-claims score under the documented per-sentence rule:
`1 - min(1, 2 * unsupportedRate)` over the counts of
`perSentenceRuleCounts`. -/
def findUnsupportedClaimsPerSentenceRule (articles : List String) : ClaimsAnalysis :=
  let counts := perSentenceRuleCounts articles
  let unsupportedRate : ℚ := if 0 < counts.1 then (counts.2 : ℚ) / counts.1 else 0
  { totalClaims := counts.1
    unsupportedClaims := counts.2
    score := 1 - min 1 (2 * unsupportedRate) }

/-- `analyzeDataIntegrity` from `coherence.scripts.js`, as a function of
the (file-system) inputs it inspects: number of files under `data/`,
presence of `data/README.md`, number of scripts under `code/`. -/
def analyzeDataIntegrity (dataFiles : Nat) (hasDataReadme : Bool) (dataScripts : Nat) : ℚ :=
  min 1 (0.5 + (if 0 < dataFiles then 0.2 else 0) +
    (if hasDataReadme then 0.2 else 0) +
    (if 0 < dataScripts then 0.1 else 0))

/-- `evaluateCodeConsistency` from `coherence.scripts.js`, as a function
of the counts of code files and result artifacts it globs for. -/
def evaluateCodeConsistency (codeFiles resultFiles : Nat) : ℚ :=
  min 1 (0.5 + (if 0 < codeFiles then 0.25 else 0) +
    (if 0 < resultFiles then 0.25 else 0))

/-- The weighted blend of the four signal-alignment factors
(`calculateSignalAlignment`, lines 161-166). -/
def signalAlignmentCombine (citationScore claimsScore dataScore codeScore : ℚ) : ℚ :=
  citationScore * 0.3 + claimsScore * 0.3 + dataScore * 0.2 + codeScore * 0.2

/-- C3: on the article text `"A shows X [^1]. B shows Y"` the code and
the documented rule disagree.  Both sentences contain the indicator
word `shows`, the second is uncited, so the documented rule yields two
claims, one unsupported, rate `1/2` and score `0`.  The code's
claim-indicator regex carries the `g` flag, so after matching `shows`
in the first sentence its `lastIndex` (7) makes the test on the second
sentence start past the indicator word: the second sentence is not
counted, the one counted claim is supported, and the score is `1`. -/
theorem findUnsupportedClaims_global_regex_divergence :
    findUnsupportedClaims ["A shows X [^1]. B shows Y"] =
      { totalClaims := 1, unsupportedClaims := 0, score := 1 } ∧
    findUnsupportedClaimsPerSentenceRule ["A shows X [^1]. B shows Y"] =
      { totalClaims := 2, unsupportedClaims := 1, score := 0 } := by
  constructor
  · have h : findUnsupportedClaimsCounts ["A shows X [^1]. B shows Y"] = (0, 1, 0) := by decide
    simp only [findUnsupportedClaims, h]
    norm_num
  · have h : perSentenceRuleCounts ["A shows X [^1]. B shows Y"] = (2, 1) := by decide
    simp only [findUnsupportedClaimsPerSentenceRule, h]
    norm_num

/-- A ten-paragraph article carrying five citation markers, the scenario
input of spec §8. -/
def tenParagraphArticle : String :=
  "[^a]\n\n[^b]\n\n[^c]\n\n[^d]\n\n[^e]\n\nf\n\ng\n\nh\n\ni\n\nj"

/-- C6: the citation factor of signal alignment equals
`min(1, density / 0.5)`; with the paragraph count and the other three
factor scores held fixed, a larger citation count never decreases the
citation factor nor the combined signal-alignment score; and a document
with 10 paragraphs and 5 citation markers has density `0.5` and
citation score exactly `1`. -/
theorem citationScore_monotone_in_citations :
    (∀ arts : List String,
      (analyzeArticleCitations arts).score =
        min 1 ((analyzeArticleCitations arts).density / 0.5)) ∧
    (∀ (arts arts' : List String) (claimsScore dataScore codeScore : ℚ),
      (analyzeArticleCitations arts).paragraphs = (analyzeArticleCitations arts').paragraphs →
      (analyzeArticleCitations arts).citations ≤ (analyzeArticleCitations arts').citations →
      (analyzeArticleCitations arts).score ≤ (analyzeArticleCitations arts').score ∧
      signalAlignmentCombine (analyzeArticleCitations arts).score
          claimsScore dataScore codeScore ≤
        signalAlignmentCombine (analyzeArticleCitations arts').score
          claimsScore dataScore codeScore) ∧
    (analyzeArticleCitations [tenParagraphArticle]).density = 0.5 ∧
    (analyzeArticleCitations [tenParagraphArticle]).score = 1 := by
  have hd0 : ∀ arts : List String, 0 ≤ (analyzeArticleCitations arts).density := by
    intro arts
    simp only [analyzeArticleCitations]
    split
    · positivity
    · exact le_refl 0
  have hs : ∀ arts : List String,
      (analyzeArticleCitations arts).score =
        min 1 ((analyzeArticleCitations arts).density / 0.5) := by
    intro arts
    have h0 : (0:ℚ) ≤ (analyzeArticleCitations arts).density / 0.5 := by
      have := hd0 arts
      positivity
    simp only [analyzeArticleCitations] at h0 ⊢
    rw [← min_assoc, min_self]
    exact max_eq_right (le_min (by norm_num) h0)
  refine ⟨hs, ?_, ?_, ?_⟩
  · intro arts arts' claimsScore dataScore codeScore hp hc
    have hscore : (analyzeArticleCitations arts).score ≤ (analyzeArticleCitations arts').score := by
      rw [hs arts, hs arts']
      have hdd : (analyzeArticleCitations arts).density ≤ (analyzeArticleCitations arts').density := by
        simp only [analyzeArticleCitations] at hp hc ⊢
        rw [← hp]
        split
        · rename_i hpos
          have hcast : (0:ℚ) < (totalParagraphsOf arts : ℚ) := by exact_mod_cast hpos
          exact (div_le_div_iff_of_pos_right hcast).mpr (Nat.cast_le.mpr hc)
        · exact le_refl 0
      gcongr
    refine ⟨hscore, ?_⟩
    unfold signalAlignmentCombine
    gcongr
  · have h1 : totalCitationsOf [tenParagraphArticle] = 5 := by decide
    have h2 : totalParagraphsOf [tenParagraphArticle] = 10 := by decide
    simp only [analyzeArticleCitations, tenParagraphArticle] at h1 h2 ⊢
    rw [h1, h2]
    norm_num
  · have h1 : totalCitationsOf [tenParagraphArticle] = 5 := by decide
    have h2 : totalParagraphsOf [tenParagraphArticle] = 10 := by decide
    simp only [analyzeArticleCitations, tenParagraphArticle] at h1 h2 ⊢
    rw [h1, h2]
    norm_num

/-- Concrete check of `citationScore_monotone_in_citations`: adding one
citation marker to a two-paragraph document (paragraph count unchanged)
does not decrease the citation score or the signal-alignment blend. -/
theorem citationScore_monotone_check :
    (analyzeArticleCitations ["a\n\nb"]).score ≤
      (analyzeArticleCitations ["a[^1]\n\nb"]).score ∧
    signalAlignmentCombine (analyzeArticleCitations ["a\n\nb"]).score 1 1 1 ≤
      signalAlignmentCombine (analyzeArticleCitations ["a[^1]\n\nb"]).score 1 1 1 :=
  citationScore_monotone_in_citations.2.1 ["a\n\nb"] ["a[^1]\n\nb"] 1 1 1
    (by decide) (by decide)

/-! ## Feedback responsiveness -/

/-- Split on every single `'\n'` character, as JavaScript
`s.split('\n')` does. -/
def splitLinesAux : List Char → List Char → List (List Char)
  | [], acc => [acc.reverse]
  | '\n' :: rest, acc => acc.reverse :: splitLinesAux rest []
  | c :: rest, acc => splitLinesAux rest (c :: acc)

/-- `s.split('\n')`. -/
def splitLines (s : List Char) : List (List Char) :=
  splitLinesAux s []

/-- One open issue, reduced to the data `analyzeOpenIssues` inspects:
the logins of its commenters (fetched via `listComments`). -/
structure IssueData where
  commentLogins : List String
deriving DecidableEq, Repr

/-- Result record of `analyzeOpenIssues`. -/
structure OpenIssuesAnalysis where
  openIssueCount : Nat
  issuesWithResponses : Nat
  responseRate : ℚ
  score : ℚ
deriving DecidableEq, Repr

/-- The author test of `analyzeOpenIssues`: the commenter is the
repository owner or the login contains the substring `author`. -/
def isAuthorLogin (owner login : String) : Bool :=
  login == owner || containsSub "author".toList login.toList

/-- `analyzeOpenIssues` from `coherence.scripts.js`.  `fetched = none` is
the `catch` path (GitHub API unreachable): the neutral result with
score `0.5`.  On success, the response rate is the fraction of open
issues with at least one author comment (`1` when there are no open
issues) and the score is `0.5 + responseRate * 0.5`. -/
def analyzeOpenIssues (owner : String) (fetched : Option (List IssueData)) :
    OpenIssuesAnalysis :=
  match fetched with
  | none =>
    { openIssueCount := 0, issuesWithResponses := 0, responseRate := 1, score := 0.5 }
  | some openIssues =>
    let issuesWithResponses :=
      (openIssues.filter fun i => i.commentLogins.any (isAuthorLogin owner)).length
    let responseRate : ℚ :=
      if 0 < openIssues.length then (issuesWithResponses : ℚ) / openIssues.length else 1
    { openIssueCount := openIssues.length
      issuesWithResponses := issuesWithResponses
      responseRate := responseRate
      score := 0.5 + responseRate * 0.5 }

/-- Result record of `analyzeIssueResolution`. -/
structure IssueResolutionAnalysis where
  closedIssueCount : Nat
  issuesWithReferences : Nat
  resolutionRate : ℚ
  score : ℚ
deriving DecidableEq, Repr

/-- `analyzeIssueResolution` from `coherence.scripts.js`.  `fetched`
models the closed-issue list: one `Bool` per closed issue recording
whether `git log --grep="#<n>"` printed anything (a failing per-issue
`git` call is skipped by the inner `catch`, which is the same as
`false`).  `none` is the outer `catch` path: neutral score `0.5`. -/
def analyzeIssueResolution (fetched : Option (List Bool)) : IssueResolutionAnalysis :=
  match fetched with
  | none =>
    { closedIssueCount := 0, issuesWithReferences := 0, resolutionRate := 1, score := 0.5 }
  | some closedIssues =>
    let issuesWithReferences := (closedIssues.filter id).length
    let resolutionRate : ℚ :=
      if 0 < closedIssues.length then (issuesWithReferences : ℚ) / closedIssues.length else 1
    { closedIssueCount := closedIssues.length
      issuesWithReferences := issuesWithReferences
      resolutionRate := resolutionRate
      score := 0.5 + resolutionRate * 0.5 }

/-- One pull request, reduced to the data `analyzePRReviews` inspects:
whether it was merged (`merged_at` present), the creation times of its
review comments and the commit times of its commits (epoch
milliseconds). -/
structure PRData where
  merged : Bool
  reviewCommentTimes : List Int
  commitTimes : List Int
deriving DecidableEq, Repr

/-- Result record of `analyzePRReviews`. -/
structure PRReviewAnalysis where
  mergedPRCount : Nat
  prsWithReviewComments : Nat
  prsWithChangesAfterReview : Nat
  integrationRate : ℚ
  score : ℚ
deriving DecidableEq, Repr

/-- Whether a PR with review comments had at least one commit strictly
after the earliest review comment (`Math.min` over the comment times,
then a strict `>` comparison on dates). -/
def prIntegrated (pr : PRData) : Bool :=
  match pr.reviewCommentTimes with
  | [] => false
  | t :: ts =>
    let earliest := ts.foldl min t
    pr.commitTimes.any fun c => earliest < c

/-- `analyzePRReviews` from `coherence.scripts.js`.  `none` is the
`catch` path: neutral score `0.5`.  On success, only merged PRs are
considered; the integration rate is, among merged PRs with review
comments, the fraction with a commit after the earliest review comment
(`1` when no merged PR has review comments); the score is
`0.5 + integrationRate * 0.5`. -/
def analyzePRReviews (fetched : Option (List PRData)) : PRReviewAnalysis :=
  match fetched with
  | none =>
    { mergedPRCount := 0, prsWithReviewComments := 0, prsWithChangesAfterReview := 0
      integrationRate := 1, score := 0.5 }
  | some prs =>
    let mergedPRs := prs.filter (·.merged)
    let prsWithReviewComments :=
      (mergedPRs.filter fun pr => !pr.reviewCommentTimes.isEmpty).length
    let prsWithChangesAfterReview :=
      (mergedPRs.filter fun pr => !pr.reviewCommentTimes.isEmpty && prIntegrated pr).length
    let integrationRate : ℚ :=
      if 0 < prsWithReviewComments then
        (prsWithChangesAfterReview : ℚ) / prsWithReviewComments
      else 1
    { mergedPRCount := mergedPRs.length
      prsWithReviewComments := prsWithReviewComments
      prsWithChangesAfterReview := prsWithChangesAfterReview
      integrationRate := integrationRate
      score := 0.5 + integrationRate * 0.5 }

/-- Result record of `analyzeContentHistory`. -/
structure ContentHistoryAnalysis where
  totalCommits : Nat
  feedbackCommits : Nat
  revisionRate : ℚ
  score : ℚ
deriving DecidableEq, Repr

/-- The alternatives of the feedback-commit regex
`/\b(address|fix|improve|update|respond|incorporate|feedback|review|suggestion|comment)\b/i`
(stateless: no `g` flag). -/
def feedbackWords : List (List Char) :=
  ["address", "fix", "improve", "update", "respond", "incorporate",
   "feedback", "review", "suggestion", "comment"].map String.toList

/-- `analyzeContentHistory` from `coherence.scripts.js`.  `gitLog` is
the stdout of `git log --pretty=format:"%s"`; `none` is the `catch`
path (e.g. a repository without commits, where `git log` exits
nonzero): neutral score `0.5`.  On success the messages are the
`'\n'`-split lines, the revision rate is the fraction of messages
matching the feedback-word regex, and the score is
`min(1, revisionRate * 2.5)` clamped into `[0, 1]`. -/
def analyzeContentHistory (gitLog : Option String) : ContentHistoryAnalysis :=
  match gitLog with
  | none =>
    { totalCommits := 0, feedbackCommits := 0, revisionRate := 0, score := 0.5 }
  | some stdout =>
    let messages := splitLines stdout.toList
    let feedbackCommits := (messages.filter (wordTest feedbackWords)).length
    let totalCommits := messages.length
    let revisionRate : ℚ :=
      if 0 < totalCommits then (feedbackCommits : ℚ) / totalCommits else 0
    let score : ℚ := min 1 (revisionRate * 2.5)
    { totalCommits := totalCommits
      feedbackCommits := feedbackCommits
      revisionRate := revisionRate
      score := max 0 (min 1 score) }

/-- Result record of `calculateFeedbackResponsiveness`. -/
structure FeedbackResult where
  score : ℚ
  openIssuesScore : ℚ
  issueResolutionScore : ℚ
  prReviewScore : ℚ
  historyScore : ℚ
deriving DecidableEq, Repr

/-- `calculateFeedbackResponsiveness` from `coherence.scripts.js`: the
weighted average `0.2/0.3/0.3/0.2` of the four feedback factors. -/
def calculateFeedbackResponsiveness (owner : String)
    (openIssuesFetch : Option (List IssueData))
    (closedIssuesFetch : Option (List Bool))
    (prFetch : Option (List PRData))
    (gitLog : Option String) : FeedbackResult :=
  let openIssuesScore := (analyzeOpenIssues owner openIssuesFetch).score
  let issueResolutionScore := (analyzeIssueResolution closedIssuesFetch).score
  let prReviewScore := (analyzePRReviews prFetch).score
  let historyScore := (analyzeContentHistory gitLog).score
  { score := openIssuesScore * 0.2 + issueResolutionScore * 0.3 +
      prReviewScore * 0.3 + historyScore * 0.2
    openIssuesScore := openIssuesScore
    issueResolutionScore := issueResolutionScore
    prReviewScore := prReviewScore
    historyScore := historyScore }

/-- C4: a failed platform fetch for any feedback sub-factor yields the
neutral score `0.5` for that factor (the `catch` paths of
`analyzeOpenIssues`, `analyzeIssueResolution`, `analyzePRReviews`), the
run is not aborted (the scorer is a total function), and the remaining
factors are combined with the usual `0.2/0.3/0.3/0.2` weights. -/
theorem feedback_fetch_failure_neutral :
    ∀ (owner : String) (oi : Option (List IssueData)) (ir : Option (List Bool))
      (pr : Option (List PRData)) (ch : Option String),
      (analyzeOpenIssues owner none).score = 0.5 ∧
      (analyzeIssueResolution none).score = 0.5 ∧
      (analyzePRReviews none).score = 0.5 ∧
      (calculateFeedbackResponsiveness owner oi ir pr ch).score =
        (analyzeOpenIssues owner oi).score * 0.2 +
        (analyzeIssueResolution ir).score * 0.3 +
        (analyzePRReviews pr).score * 0.3 +
        (analyzeContentHistory ch).score * 0.2 ∧
      (calculateFeedbackResponsiveness owner none none none none).score = 0.5 := by
  intro owner oi ir pr ch
  refine ⟨rfl, rfl, rfl, rfl, ?_⟩
  simp only [calculateFeedbackResponsiveness, analyzeOpenIssues,
    analyzeIssueResolution, analyzePRReviews, analyzeContentHistory]
  norm_num

/-! ## Overall coherence -/

/-- The component weights of the coherence configuration
(`config.weights`), all `1.0` by default. -/
structure CoherenceWeights where
  signal : ℝ
  feedback : ℝ
  bounded : ℝ
  elastic : ℝ

/-- The default configuration weights. -/
def configWeights : CoherenceWeights :=
  { signal := 1, feedback := 1, bounded := 1, elastic := 1 }

/-- `calculateOverallCoherence` from `coherence.scripts.js`: the
weighted geometric mean
`(S^wS * F^wF * B^wB * l^wl) ^ (1 / (wS + wF + wB + wl))`
of the four component scores, with the configured weights. -/
noncomputable def calculateOverallCoherence
    (signalAlignment feedbackResponsiveness boundedIntegrity elasticTolerance : ℝ) : ℝ :=
  let s := signalAlignment ^ configWeights.signal
  let f := feedbackResponsiveness ^ configWeights.feedback
  let b := boundedIntegrity ^ configWeights.bounded
  let l := elasticTolerance ^ configWeights.elastic
  let totalWeight := configWeights.signal + configWeights.feedback +
    configWeights.bounded + configWeights.elastic
  (s * f * b * l) ^ (1 / totalWeight)

/-- C1: with the default weights (all `1.0`), the overall coherence of
four component scores in `[0,1]` is the plain geometric mean
`(S*F*B*l)^(1/4)`; it lies in `[0,1]` and collapses to `0` as soon as
any single component is exactly `0`. -/
theorem overallCoherence_geometric_mean (s f b l : ℝ)
    (hs0 : 0 ≤ s) (hs1 : s ≤ 1) (hf0 : 0 ≤ f) (hf1 : f ≤ 1)
    (hb0 : 0 ≤ b) (hb1 : b ≤ 1) (hl0 : 0 ≤ l) (hl1 : l ≤ 1) :
    calculateOverallCoherence s f b l = (s * f * b * l) ^ ((1:ℝ) / 4) ∧
    0 ≤ calculateOverallCoherence s f b l ∧
    calculateOverallCoherence s f b l ≤ 1 ∧
    ((s = 0 ∨ f = 0 ∨ b = 0 ∨ l = 0) → calculateOverallCoherence s f b l = 0) := by
  have heq : calculateOverallCoherence s f b l = (s * f * b * l) ^ ((1:ℝ) / 4) := by
    simp only [calculateOverallCoherence, configWeights, Real.rpow_one]
    norm_num
  have hp0 : (0:ℝ) ≤ s * f * b * l := by positivity
  have hp1 : s * f * b * l ≤ 1 := by
    calc s * f * b * l ≤ 1 * 1 * 1 * 1 := by gcongr
    _ = 1 := by norm_num
  refine ⟨heq, ?_, ?_, ?_⟩
  · rw [heq]; exact Real.rpow_nonneg hp0 _
  · rw [heq]; exact Real.rpow_le_one hp0 hp1 (by norm_num)
  · intro hzero
    rw [heq]
    have : s * f * b * l = 0 := by
      rcases hzero with h | h | h | h <;> rw [h] <;> ring
    rw [this]
    exact Real.zero_rpow (by norm_num)

/-- Concrete check of `overallCoherence_geometric_mean`: at the
component scores `(0, 1, 1, 1)` the overall coherence collapses to `0`
and lies in `[0, 1]`. -/
theorem overallCoherence_geometric_mean_check :
    calculateOverallCoherence 0 1 1 1 = 0 ∧
    0 ≤ calculateOverallCoherence 0 1 1 1 ∧
    calculateOverallCoherence 0 1 1 1 ≤ 1 := by
  have h := overallCoherence_geometric_mean 0 1 1 1
    (by norm_num) (by norm_num) (by norm_num) (by norm_num)
    (by norm_num) (by norm_num) (by norm_num) (by norm_num)
  exact ⟨h.2.2.2 (Or.inl rfl), h.2.1, h.2.2.1⟩

/-! ## Bounded integrity -/

/-- A front-matter metadata value as the scripts see it: absent, a
single string, or an array of strings (`gray-matter` output). -/
inductive MetaVal where
  | absent
  | str (s : String)
  | arr (l : List String)
deriving DecidableEq, Repr

/-- JavaScript truthiness of a metadata value: `undefined` and the
empty string are falsy; every array (even empty) is truthy. -/
def MetaVal.truthy : MetaVal → Bool
  | .absent => false
  | .str s => !(s == "")
  | .arr _ => true

/-- The elements pushed by `scopes.push(...)`: a string pushes itself,
an array spreads its elements (`Array.isArray` branch of
`analyzeScopeIntegrity`). -/
def MetaVal.asList : MetaVal → List String
  | .absent => []
  | .str s => [s]
  | .arr l => l

/-- The JavaScript spread `...(x || [])` used by `analyzeTopicDrift`:
`undefined` and `""` give the empty list, an array spreads its
elements, and a nonempty *string* spreads its characters. -/
def MetaVal.jsSpread : MetaVal → List String
  | .absent => []
  | .str s => if s == "" then [] else s.toList.map fun c => String.mk [c]
  | .arr l => l

/-- Article front matter, restricted to the fields the scorer reads. -/
structure ArticleMeta where
  title : Option String := none
  tags : MetaVal := .absent
  scope : MetaVal := .absent
  keywords : MetaVal := .absent
deriving DecidableEq, Repr

/-- A parsed article: front matter plus markdown body
(`parseArticleContents` output). -/
structure Article where
  metadata : ArticleMeta
  content : String
deriving DecidableEq, Repr

/-- JavaScript `String.prototype.trim`. -/
def jsTrim (s : String) : String :=
  String.mk (((s.toList.dropWhile Char.isWhitespace).reverse.dropWhile
    Char.isWhitespace).reverse)

/-- The word filter of the scope extractor (`extractWords` inside
`analyzeScopeIntegrity`): split on whitespace, keep words longer than
3 characters, lowercase, drop a fixed stoplist. -/
def extractWords (text : List Char) : List String :=
  ((((splitWs text).map String.mk).filter fun w => 3 < w.length).map
    String.toLower).filter fun w =>
      !(["this", "that", "with", "from", "about"].contains w)

/-- The title-word extractor of `analyzeScopeIntegrity`: split the title
on whitespace, keep words longer than 3 characters, lowercase (no
stoplist here). -/
def titleWordsOf (title : Option String) : List String :=
  match title with
  | none => []
  | some t =>
    if t == "" then []
    else (((splitWs t.toList).map String.mk).filter fun w => 3 < w.length).map
      String.toLower

/-- Deduplicate keeping first occurrences, the iteration order of a
JavaScript `Set` built from a list. -/
def dedupeKeepFirst (l : List String) : List String :=
  l.foldl (fun acc t => if acc.contains t then acc else acc ++ [t]) []

/-- Result record of `analyzeScopeIntegrity`. -/
structure ScopeAnalysis where
  declaredScopes : List String
  scopeMatchCount : Nat
  scopeCoverage : ℚ
  hasDeclaredScope : Bool
  score : ℚ
deriving DecidableEq, Repr

/-- `analyzeScopeIntegrity` from `coherence.scripts.js`: collect scope
terms from metadata `scope`/`tags` (or, when none are declared and an
article exists, from title words and the first/last sentence of the
three-paragraph introduction), deduplicate case-insensitively, count
how many occur in the full text (`\b<term>\b`, case-insensitive; scope
terms are modelled as regex-literal words), and score
`(0.5 if scope declared else 0.3) + coverage * 0.5`, capped at `1`. -/
def analyzeScopeIntegrity (articles : List Article) : ScopeAnalysis :=
  let fullText := String.intercalate " " (articles.map (·.content))
  let scopes0 := articles.foldl
    (fun acc a =>
      let acc1 := if a.metadata.scope.truthy then acc ++ a.metadata.scope.asList else acc
      if a.metadata.tags.truthy then acc1 ++ a.metadata.tags.asList else acc1)
    []
  let scopes :=
    if scopes0.isEmpty && !articles.isEmpty then
      match articles with
      | [] => scopes0
      | mainArticle :: _ =>
        let tw := titleWordsOf mainArticle.metadata.title
        let intro := String.intercalate " "
          (((splitParas mainArticle.content.toList).take 3).map String.mk)
        let introSentences := splitSentences intro.toList
        let fromIntro :=
          match introSentences with
          | [] => []
          | first :: _ =>
            extractWords first ++ extractWords (introSentences.getLastD [])
        scopes0 ++ tw ++ fromIntro
    else scopes0
  let uniqueScopes := dedupeKeepFirst (scopes.map String.toLower)
  let scopeMatchCount :=
    (uniqueScopes.filter fun sc => wordTest [sc.toList] fullText.toList).length
  let scopeCoverage : ℚ :=
    if 0 < uniqueScopes.length then (scopeMatchCount : ℚ) / uniqueScopes.length else 0
  let hasDeclaredScope :=
    articles.any fun a => a.metadata.scope.truthy || a.metadata.tags.truthy
  { declaredScopes := uniqueScopes
    scopeMatchCount := scopeMatchCount
    scopeCoverage := scopeCoverage
    hasDeclaredScope := hasDeclaredScope
    score := min 1 ((if hasDeclaredScope then (0.5:ℚ) else 0.3) + scopeCoverage * 0.5) }

/-- The stopword list of `extractTopics`. -/
def topicStopwords : List String :=
  ["a", "an", "the", "and", "but", "or", "for", "nor", "on", "at", "to", "from",
   "by", "about", "as", "in", "of", "with", "during", "including", "until",
   "against", "among", "throughout", "despite", "towards", "upon", "is", "are",
   "was", "were", "be", "been", "being", "have", "has", "had", "do", "does",
   "did", "can", "could", "shall", "should", "will", "would", "may", "might",
   "must", "this", "that", "these", "those", "i", "you", "he", "she", "it",
   "we", "they", "their", "our", "your", "my", "his", "her", "its"]

/-- Stable insertion of `x` into a count-descending list: `x` goes
before the first element with count `≤` its own, so elements with equal
counts keep their original relative order (JavaScript's stable
`sort((a, b) => b[1] - a[1])`). -/
def insertByCount (counts : String → Nat) (x : String) : List String → List String
  | [] => [x]
  | y :: rest =>
    if counts y ≤ counts x then x :: y :: rest else y :: insertByCount counts x rest

/-- Stable descending sort by count. -/
def sortByCountDesc (counts : String → Nat) : List String → List String
  | [] => []
  | x :: rest => insertByCount counts x (sortByCountDesc counts rest)

/-- `extractTopics` from `coherence.scripts.js`: tokenize the lowercased
text (model of `natural.WordTokenizer`), drop stopwords and words of at
most 3 characters, count frequencies (insertion-ordered keys), sort
descending by count (stable) and keep the top 10 terms. -/
def extractTopics (text : String) : List String :=
  let tokens := (tokenizeWords text.toLower.toList).map String.mk
  let filtered := tokens.filter fun t => !topicStopwords.contains t && 3 < t.length
  let keys := dedupeKeepFirst filtered
  (sortByCountDesc (fun t => filtered.count t) keys).take 10

/-- `calculateTopicOverlap` from `coherence.scripts.js`: the Jaccard
index `|common| / |union|`.  (In JavaScript, two empty topic sets give
`0/0 = NaN`, whose only use `NaN >= 0.3` is false; in `ℚ`, `0/0 = 0`
and `0 >= 0.3` is equally false.) -/
def calculateTopicOverlap (topics1 topics2 : List String) : ℚ :=
  let common := topics1.filter fun t => topics2.contains t
  let union := dedupeKeepFirst (topics1 ++ topics2)
  (common.length : ℚ) / union.length

/-- Whether a line matches the section-header regex `^#{1,3}\s+(.+)$`:
one to three leading `#`, a whitespace character, and at least one more
character. -/
def isHeaderLine (line : List Char) : Bool :=
  let hashes := line.takeWhile fun c => c == '#'
  let rest := line.drop hashes.length
  decide (1 ≤ hashes.length) && decide (hashes.length ≤ 3) &&
    (match rest with
     | c :: _ :: _ => c.isWhitespace
     | _ => false)

/-- The title captured by `(.+)$` after `#{1,3}\s+`: the rest of the
line after the maximal whitespace run, or (when the rest is all
whitespace) the last character, which greedy backtracking leaves to
`.+`. -/
def headerTitle (rest : List Char) : List Char :=
  let afterWs := rest.dropWhile Char.isWhitespace
  if afterWs.isEmpty then
    match rest.getLast? with
    | some c => [c]
    | none => []
  else afterWs

/-- The sections of `analyzeTopicDrift`, as `(title, body)` pairs: each
header line opens a section whose body runs to the next header (the
`matchAll` index arithmetic of the script), trimmed. -/
def sectionsOf (content : String) : List (String × String) :=
  let lines := splitLines content.toList
  let idxs := (List.range lines.length).filter fun i =>
    match lines.get? i with
    | some l => isHeaderLine l
    | none => false
  idxs.map fun i =>
    let line := (lines.get? i).getD []
    let hashes := line.takeWhile fun c => c == '#'
    let title := String.mk (headerTitle (line.drop hashes.length))
    let nextIdx := (idxs.filter fun j => i < j).headD lines.length
    let body := String.intercalate "\n"
      (((lines.drop (i + 1)).take (nextIdx - (i + 1))).map String.mk)
    (title, jsTrim body)

/-- Result record of `analyzeTopicDrift`. -/
structure TopicDriftAnalysis where
  driftScore : ℚ
  sectionCount : Nat
  cohesiveCount : Nat
  cohesionRate : ℚ
  score : ℚ
deriving DecidableEq, Repr

/-- The fallback title of the whole-article pseudo-section:
`mainArticle.metadata?.title || 'Article'`. -/
def fallbackTitle (title : Option String) : String :=
  match title with
  | none => "Article"
  | some t => if t == "" then "Article" else t

/-- `analyzeTopicDrift` from `coherence.scripts.js`: with no articles,
the neutral record with score `0.5`; otherwise split the main article
into header sections (the whole article as one pseudo-section if no
headers), compare each section's topic set against the main topic set
drawn from title/tags/keywords, call a section cohesive when the
Jaccard overlap is at least `0.3`, and score
`1 - driftScore * 0.7` clamped into `[0, 1]` where
`driftScore = 1 - cohesionRate`. -/
def analyzeTopicDrift (articles : List Article) : TopicDriftAnalysis :=
  match articles with
  | [] =>
    { driftScore := 0, sectionCount := 0, cohesiveCount := 0, cohesionRate := 0
      score := 0.5 }
  | mainArticle :: _ =>
    let secs0 := sectionsOf mainArticle.content
    let sections :=
      if secs0.isEmpty then
        [(fallbackTitle mainArticle.metadata.title, mainArticle.content,
          extractTopics mainArticle.content)]
      else secs0.map fun tb => (tb.1, tb.2, extractTopics (tb.1 ++ " " ++ tb.2))
    let mainTopics := extractTopics (String.intercalate " "
      ([(mainArticle.metadata.title).getD ""] ++
        mainArticle.metadata.tags.jsSpread ++ mainArticle.metadata.keywords.jsSpread))
    let cohesiveCount := (sections.filter fun sec =>
      (0.3:ℚ) ≤ calculateTopicOverlap mainTopics sec.2.2).length
    let cohesionRate : ℚ :=
      if 0 < sections.length then (cohesiveCount : ℚ) / sections.length else 0
    let driftScore := 1 - cohesionRate
    let score : ℚ := 1 - driftScore * 0.7
    { driftScore := driftScore
      sectionCount := sections.length
      cohesiveCount := cohesiveCount
      cohesionRate := cohesionRate
      score := max 0 (min 1 score) }

/-- Result record of the `evaluateTermConsistency` stub. -/
structure TermConsistency where
  consistencyRate : ℚ
  termVariations : Nat
  score : ℚ
deriving DecidableEq, Repr

/-- `evaluateTermConsistency`: a stub in the source, returning the fixed
score `0.85` regardless of content. -/
def evaluateTermConsistency : TermConsistency :=
  { consistencyRate := 0.85, termVariations := 3, score := 0.85 }

/-- Result record of the `analyzeMethodBoundaries` stub. -/
structure MethodBoundaries where
  boundaryViolations : Nat
  methodCount : Nat
  violationRate : ℚ
  score : ℚ
deriving DecidableEq, Repr

/-- `analyzeMethodBoundaries`: a stub in the source, returning the fixed
score `0.9`. -/
def analyzeMethodBoundaries : MethodBoundaries :=
  { boundaryViolations := 0, methodCount := 2, violationRate := 0, score := 0.9 }

/-- Result record of `calculateBoundedIntegrity`. -/
structure BoundedResult where
  score : ℚ
  scopeScore : ℚ
  driftScore : ℚ
  termScore : ℚ
  methodScore : ℚ
deriving DecidableEq, Repr

/-- `calculateBoundedIntegrity` from `coherence.scripts.js`: the
weighted average `0.3/0.3/0.2/0.2` of scope integrity, topic drift,
term consistency and method boundaries. -/
def calculateBoundedIntegrity (articles : List Article) : BoundedResult :=
  let scopeScore := (analyzeScopeIntegrity articles).score
  let driftScore := (analyzeTopicDrift articles).score
  let termScore := evaluateTermConsistency.score
  let methodScore := analyzeMethodBoundaries.score
  { score := scopeScore * 0.3 + driftScore * 0.3 + termScore * 0.2 + methodScore * 0.2
    scopeScore := scopeScore
    driftScore := driftScore
    termScore := termScore
    methodScore := methodScore }

/-! ## Elastic tolerance (all four factors are stubs in the source) -/

/-- `analyzeContradictions`: a stub returning the fixed score `0.8`. -/
def analyzeContradictionsScore : ℚ := 0.8

/-- `analyzeMultiplePerspectives`: a stub returning the fixed score `0.7`. -/
def analyzeMultiplePerspectivesScore : ℚ := 0.7

/-- `evaluateUncertaintyRepresentation`: a stub returning the fixed
score `0.8`. -/
def evaluateUncertaintyScore : ℚ := 0.8

/-- `analyzeLimitationAcknowledgment`: a stub returning the fixed score
`0.85`. -/
def analyzeLimitationScore : ℚ := 0.85

/-- `calculateElasticTolerance` from `coherence.scripts.js`: the equal
`0.25` blend of the four (stubbed) factors. -/
def calculateElasticTolerance : ℚ :=
  analyzeContradictionsScore * 0.25 + analyzeMultiplePerspectivesScore * 0.25 +
    evaluateUncertaintyScore * 0.25 + analyzeLimitationScore * 0.25

/-! ## The full coherence run -/

/-- Result record of `calculateSignalAlignment`. -/
structure SignalResult where
  score : ℚ
  citationScore : ℚ
  claimsScore : ℚ
  dataScore : ℚ
  codeScore : ℚ
deriving DecidableEq, Repr

/-- The inputs of one coherence run: parsed articles, the file-system
counts inspected by the data/code factors, and the external fetches
(GitHub API, `git`) with `none` marking an unavailable source. -/
structure RepoInputs where
  articles : List Article
  dataFiles : Nat
  hasDataReadme : Bool
  dataScripts : Nat
  codeFiles : Nat
  resultFiles : Nat
  owner : String
  openIssuesFetch : Option (List IssueData)
  closedIssuesFetch : Option (List Bool)
  prFetch : Option (List PRData)
  gitLog : Option String
deriving Repr

/-- `calculateSignalAlignment` from `coherence.scripts.js`: the
weighted blend `0.3/0.3/0.2/0.2` of citations, claims, data and code
factors. -/
def calculateSignalAlignment (inp : RepoInputs) : SignalResult :=
  let citationScore := (analyzeArticleCitations (inp.articles.map (·.content))).score
  let claimsScore := (findUnsupportedClaims (inp.articles.map (·.content))).score
  let dataScore := analyzeDataIntegrity inp.dataFiles inp.hasDataReadme inp.dataScripts
  let codeScore := evaluateCodeConsistency inp.codeFiles inp.resultFiles
  { score := signalAlignmentCombine citationScore claimsScore dataScore codeScore
    citationScore := citationScore
    claimsScore := claimsScore
    dataScore := dataScore
    codeScore := codeScore }

/-- The four component scores of a coherence run (`components` of the
persisted `CoherenceReport`). -/
structure CoherenceComponents where
  signalAlignment : ℚ
  feedbackResponsiveness : ℚ
  boundedIntegrity : ℚ
  elasticTolerance : ℚ
deriving DecidableEq, Repr

/-- The component scores computed by `checkCoherence`. -/
def coherenceComponents (inp : RepoInputs) : CoherenceComponents :=
  { signalAlignment := (calculateSignalAlignment inp).score
    feedbackResponsiveness := (calculateFeedbackResponsiveness inp.owner
      inp.openIssuesFetch inp.closedIssuesFetch inp.prFetch inp.gitLog).score
    boundedIntegrity := (calculateBoundedIntegrity inp.articles).score
    elasticTolerance := calculateElasticTolerance }

/-- The overall score computed by `checkCoherence`:
`calculateOverallCoherence` applied to the four component scores. -/
noncomputable def checkCoherenceOverall (inp : RepoInputs) : ℝ :=
  let c := coherenceComponents inp
  calculateOverallCoherence (c.signalAlignment : ℝ) (c.feedbackResponsiveness : ℝ)
    (c.boundedIntegrity : ℝ) (c.elasticTolerance : ℝ)

/-- `config.thresholds.overall`, the publication threshold of the run. -/
def overallThreshold : ℝ := 0.7

/-- The exit-status branch of `checkCoherence`: the run exits with
failure exactly when the overall score is below
`config.thresholds.overall`. -/
def coherenceRunFails (inp : RepoInputs) : Prop :=
  checkCoherenceOverall inp < overallThreshold

/-- An empty repository: no documents, no data or code files, the
platform returns empty issue/PR lists, and `git log` fails (a
repository without commits makes `git log` exit nonzero, taking the
`catch` path of `analyzeContentHistory`). -/
def emptyRepoInputs : RepoInputs :=
  { articles := [], dataFiles := 0, hasDataReadme := false, dataScripts := 0,
    codeFiles := 0, resultFiles := 0, owner := "owner",
    openIssuesFetch := some [], closedIssuesFetch := some [], prFetch := some [],
    gitLog := none }

/-- C7 (counterexample): on the empty repository the feedback component
does *not* take the documented neutral default `0.5` — empty issue and
pull-request lists give three perfect sub-factor rates of `1`, so the
component is `0.9`. -/
theorem emptyRepo_feedback_not_neutral :
    (coherenceComponents emptyRepoInputs).feedbackResponsiveness = 9/10 ∧
    (9/10 : ℚ) ≠ 0.5 := by
  constructor
  · simp only [coherenceComponents, emptyRepoInputs,
      calculateFeedbackResponsiveness, analyzeOpenIssues,
      analyzeIssueResolution, analyzePRReviews, analyzeContentHistory,
      List.filter, List.length]
    norm_num
  · norm_num

/-- C7 (amended): on the empty repository the run completes without
crashing; the components take the specific empty-input default values
`S = 0.5`, `F = 0.9` (empty issue/PR lists score `1.0` on three
factors, the failing `git log` the neutral `0.5` on the fourth),
`B = 0.59` and `lambda = 0.7875`; the overall score is the geometric
mean `(0.2090390625)^(1/4) ≈ 0.676`, which is below the `0.7`
threshold, so the run reports failure. -/
theorem emptyRepo_run_completes_and_fails :
    coherenceComponents emptyRepoInputs =
      { signalAlignment := 1/2, feedbackResponsiveness := 9/10,
        boundedIntegrity := 59/100, elasticTolerance := 63/80 } ∧
    checkCoherenceOverall emptyRepoInputs = ((33453/160000 : ℝ)) ^ ((1:ℝ)/4) ∧
    coherenceRunFails emptyRepoInputs := by
  have hc : coherenceComponents emptyRepoInputs =
      { signalAlignment := 1/2, feedbackResponsiveness := 9/10,
        boundedIntegrity := 59/100, elasticTolerance := 63/80 } := by
    simp only [coherenceComponents, emptyRepoInputs, calculateSignalAlignment,
      analyzeArticleCitations, totalCitationsOf, totalParagraphsOf,
      findUnsupportedClaims, findUnsupportedClaimsCounts, analyzeDataIntegrity,
      evaluateCodeConsistency, signalAlignmentCombine,
      calculateFeedbackResponsiveness, analyzeOpenIssues, analyzeIssueResolution,
      analyzePRReviews, analyzeContentHistory, calculateBoundedIntegrity,
      analyzeScopeIntegrity, analyzeTopicDrift, evaluateTermConsistency,
      analyzeMethodBoundaries, calculateElasticTolerance,
      analyzeContradictionsScore, analyzeMultiplePerspectivesScore,
      evaluateUncertaintyScore, analyzeLimitationScore, dedupeKeepFirst,
      List.map, List.foldl, List.filter, List.sum, List.length, List.any,
      List.isEmpty, String.intercalate, CoherenceComponents.mk.injEq]
    norm_num
  have hov : checkCoherenceOverall emptyRepoInputs =
      ((33453/160000 : ℝ)) ^ ((1:ℝ)/4) := by
    simp only [checkCoherenceOverall, hc, calculateOverallCoherence,
      configWeights, Real.rpow_one]
    congr 1
    · push_cast
      norm_num
    · norm_num
  refine ⟨hc, hov, ?_⟩
  rw [coherenceRunFails, hov, overallThreshold]
  have hbase : (0:ℝ) ≤ 33453/160000 := by norm_num
  by_contra hcon
  push_neg at hcon
  have h4 : (0.7:ℝ) ^ (4:ℕ) ≤ (((33453/160000:ℝ)) ^ ((1:ℝ)/4)) ^ (4:ℕ) :=
    pow_le_pow_left₀ (by norm_num) hcon 4
  rw [← Real.rpow_natCast (((33453/160000:ℝ)) ^ ((1:ℝ)/4)) 4,
    ← Real.rpow_mul hbase] at h4
  have hone : ((1:ℝ)/4) * ((4:ℕ):ℝ) = 1 := by norm_num
  rw [hone, Real.rpow_one] at h4
  norm_num at h4

/-! ## Attribution graph builder -/

/-- Contributor identity passed to `addContributorNode`.  Every call
site of the script passes a `name` (the git author name or the GitHub
login). -/
structure Contributor where
  name : String
  email : Option String := none
  github : Option String := none
  avatarUrl : Option String := none
deriving DecidableEq, Repr

/-- Content reference passed to `addContentNode`: a file path,
`issues/<n>` or `pulls/<n>`. -/
structure ContentRef where
  path : String
  title : Option String := none
  type : String
deriving DecidableEq, Repr

/-- A node of the attribution graph (contributor or content; unused
fields are `none`). -/
structure Node where
  id : String
  name : Option String := none
  email : Option String := none
  github : Option String := none
  avatarUrl : Option String := none
  path : Option String := none
  title : Option String := none
  type : String
  contributions : Nat := 0
  contributionBreakdown : List (String × Nat) := []
deriving DecidableEq, Repr

/-- A link of the attribution graph. -/
structure Link where
  source : String
  target : String
  type : String
  weight : ℚ
  timestamp : String
  metadata : List (String × String) := []
deriving DecidableEq, Repr

/-- The attribution graph state (the wall-clock `metadata.generated`
stamp of the persisted file is outside the model). -/
structure AttributionGraph where
  nodes : List Node
  links : List Link
deriving DecidableEq, Repr

/-- `nodeId` from `coherence.scripts.js`:
`` `${type}:${name.replace(/[^a-zA-Z0-9]/g, '_')}` ``. -/
def nodeId (type name : String) : String :=
  type ++ ":" ++ String.mk (name.toList.map fun c => if c.isAlphanum then c else '_')

/-- `addContributorNode`: push a contributor node unless a node with the
same id already exists. -/
def addContributorNode (g : AttributionGraph) (c : Contributor) : AttributionGraph :=
  if g.nodes.any fun n => n.id == nodeId "contributor" c.name then g
  else
    { g with nodes := g.nodes ++
        [{ id := nodeId "contributor" c.name, name := some c.name, email := c.email,
           github := c.github, avatarUrl := c.avatarUrl, type := "contributor",
           contributions := 0 }] }

/-- `addContentNode`: push a content node unless a node with the same id
already exists. -/
def addContentNode (g : AttributionGraph) (content : ContentRef) : AttributionGraph :=
  if g.nodes.any fun n => n.id == nodeId "content" content.path then g
  else
    { g with nodes := g.nodes ++
        [{ id := nodeId "content" content.path, path := some content.path,
           title := content.title, type := content.type }] }

/-- The link-deduplication key of `addLink`:
`(source, target, type, timestamp)` equality. -/
def linkKeyMatches (l x : Link) : Bool :=
  x.source == l.source && x.target == l.target && x.type == l.type &&
    x.timestamp == l.timestamp

/-- `addLink`: push a link unless one with the same
`(source, target, type, timestamp)` key already exists. -/
def addLink (g : AttributionGraph) (l : Link) : AttributionGraph :=
  if g.links.any (linkKeyMatches l) then g
  else { g with links := g.links ++ [l] }

/-- One atomic contribution folded into the graph by the mapping
functions (`mapCodeContributions` per commit file,
`mapIssueContributions` per issue or comment, `mapPRContributions` per
PR, review or comment): the contributor, the content path used as link
target, whether this event also adds a content node (creation events
do, comment/review events target the already-added issue/PR node), and
the link attributes. -/
structure BuilderEvent where
  contributor : Contributor
  path : String
  contentTitle : Option String := none
  contentType : String := ""
  addsContent : Bool
  linkType : String
  weight : ℚ
  timestamp : String
  metadata : List (String × String) := []
deriving DecidableEq, Repr

/-- The link added for an event: source and target derived through
`nodeId` as in every call site of `addLink`. -/
def eventLink (e : BuilderEvent) : Link :=
  { source := nodeId "contributor" e.contributor.name
    target := nodeId "content" e.path
    type := e.linkType
    weight := e.weight
    timestamp := e.timestamp
    metadata := e.metadata }

/-- Folding one event into the graph: add the contributor node, the
content node when the event carries one, then the link — the uniform
body of the four mapping functions. -/
def processEvent (g : AttributionGraph) (e : BuilderEvent) : AttributionGraph :=
  addLink
    (if e.addsContent then
      addContentNode (addContributorNode g e.contributor)
        { path := e.path, title := e.contentTitle, type := e.contentType }
    else addContributorNode g e.contributor)
    (eventLink e)

/-- `mapCodeContributions`/`mapIssueContributions`/`mapPRContributions`
combined: fold the whole event list into the graph. -/
def foldEvents (g : AttributionGraph) (events : List BuilderEvent) : AttributionGraph :=
  events.foldl processEvent g

/-- A JavaScript number as far as the density computation needs it:
finite (an exact rational), one of the two infinities, or `NaN`. -/
inductive JsNum where
  | nan
  | posInf
  | negInf
  | num (q : ℚ)
deriving DecidableEq, Repr

/-- Finiteness of a JavaScript number (`Number.isFinite`). -/
def JsNum.isFinite : JsNum → Bool
  | .num _ => true
  | _ => false

/-- The density expression of `calculateAttributionMetrics`,
`graph.links.length / (graph.nodes.length * (graph.nodes.length - 1) / 2)`,
under JavaScript (IEEE-754 double) evaluation, case by case: with `0`
nodes the denominator is `0 * (0 - 1) / 2 = -0` (negative zero), so the
quotient is `NaN` for `0` links and `-Infinity` otherwise; with `1`
node the denominator is `1 * 0 / 2 = +0`, giving `NaN` or `+Infinity`;
with at least `2` nodes the denominator is a positive integer-valued
double and the quotient is finite (integer operands this small are
exact in doubles). -/
def jsDensity (nodes links : Nat) : JsNum :=
  if nodes == 0 then (if links == 0 then .nan else .negInf)
  else if nodes == 1 then (if links == 0 then .nan else .posInf)
  else .num ((links : ℚ) / ((nodes : ℚ) * ((nodes : ℚ) - 1) / 2))

/-- The aggregate metrics written to `graph.metadata.metrics` (the
wall-clock `lastUpdated` stamp is outside the model). -/
structure AttributionMetrics where
  contributorCount : Nat
  totalContributions : Nat
  contentNodes : Nat
  density : JsNum
deriving DecidableEq, Repr

/-- The occurrence-count accumulation of `contributionBreakdown`: bump
the entry for `k` or append a fresh one (JavaScript object keys are in
first-insertion order). -/
def bumpKey (acc : List (String × Nat)) (k : String) : List (String × Nat) :=
  if acc.any fun p => p.1 == k then
    acc.map fun p => if p.1 == k then (p.1, p.2 + 1) else p
  else acc ++ [(k, 1)]

/-- The per-node update of `calculateAttributionMetrics`: a contributor
node's `contributions` becomes the number of links with it as source,
and its `contributionBreakdown` the per-type counts of those links;
content nodes are untouched. -/
def nodeWithMetrics (links : List Link) (n : Node) : Node :=
  if n.type == "contributor" then
    let contribs := links.filter fun l => l.source == n.id
    { n with contributions := contribs.length
             contributionBreakdown := contribs.foldl (fun acc l => bumpKey acc l.type) [] }
  else n

/-- `calculateAttributionMetrics` from `coherence.scripts.js`: update
every contributor node's contribution count and breakdown in place, and
compute the aggregate metrics (contributor count, total contributions,
content-node count, density). -/
def calculateAttributionMetrics (g : AttributionGraph) :
    AttributionGraph × AttributionMetrics :=
  let nodes' := g.nodes.map (nodeWithMetrics g.links)
  ({ nodes := nodes', links := g.links },
   { contributorCount := (nodes'.filter fun n => n.type == "contributor").length
     totalContributions := g.links.length
     contentNodes := (nodes'.filter fun n => !(n.type == "contributor")).length
     density := jsDensity g.nodes.length g.links.length })

/-- One run of `generateAttributionMap` on a loaded graph: fold the
events in, then recompute the metrics; the returned pair is the
persisted graph and its metrics. -/
def runAttributionBuilder (g : AttributionGraph) (events : List BuilderEvent) :
    AttributionGraph × AttributionMetrics :=
  calculateAttributionMetrics (foldEvents g events)

/-- Whether the graph already holds a node with the given id
(the dedup test of `addContributorNode`/`addContentNode`). -/
def hasNodeId (g : AttributionGraph) (i : String) : Bool :=
  g.nodes.any fun n => n.id == i

/-- Whether the graph already holds a link with the same
`(source, target, type, timestamp)` key (the dedup test of
`addLink`). -/
def hasLinkKey (g : AttributionGraph) (l : Link) : Bool :=
  g.links.any (linkKeyMatches l)

theorem addContributorNode_links (g : AttributionGraph) (c : Contributor) :
    (addContributorNode g c).links = g.links := by
  unfold addContributorNode
  split <;> rfl

theorem addContentNode_links (g : AttributionGraph) (c : ContentRef) :
    (addContentNode g c).links = g.links := by
  unfold addContentNode
  split <;> rfl

theorem addLink_nodes (g : AttributionGraph) (l : Link) :
    (addLink g l).nodes = g.nodes := by
  unfold addLink
  split <;> rfl

theorem hasNodeId_addContributorNode (g : AttributionGraph) (c : Contributor)
    (i : String) (h : hasNodeId g i = true) :
    hasNodeId (addContributorNode g c) i = true := by
  unfold addContributorNode
  split
  · exact h
  · simp only [hasNodeId] at h ⊢
    simp [List.any_append, h]

theorem hasNodeId_addContentNode (g : AttributionGraph) (c : ContentRef)
    (i : String) (h : hasNodeId g i = true) :
    hasNodeId (addContentNode g c) i = true := by
  unfold addContentNode
  split
  · exact h
  · simp only [hasNodeId] at h ⊢
    simp [List.any_append, h]

theorem hasNodeId_addLink (g : AttributionGraph) (l : Link) (i : String) :
    hasNodeId (addLink g l) i = hasNodeId g i := by
  unfold hasNodeId
  rw [addLink_nodes]

theorem hasLinkKey_addContributorNode (g : AttributionGraph) (c : Contributor)
    (l : Link) : hasLinkKey (addContributorNode g c) l = hasLinkKey g l := by
  unfold hasLinkKey
  rw [addContributorNode_links]

theorem hasLinkKey_addContentNode (g : AttributionGraph) (c : ContentRef)
    (l : Link) : hasLinkKey (addContentNode g c) l = hasLinkKey g l := by
  unfold hasLinkKey
  rw [addContentNode_links]

theorem hasLinkKey_addLink (g : AttributionGraph) (l lp : Link)
    (h : hasLinkKey g l = true) : hasLinkKey (addLink g lp) l = true := by
  unfold addLink
  split
  · exact h
  · simp only [hasLinkKey] at h ⊢
    simp [List.any_append, h]

theorem addContributorNode_establishes (g : AttributionGraph) (c : Contributor) :
    hasNodeId (addContributorNode g c) (nodeId "contributor" c.name) = true := by
  unfold addContributorNode
  split
  · rename_i h
    exact h
  · simp [hasNodeId, List.any_append]

theorem addContentNode_establishes (g : AttributionGraph) (c : ContentRef) :
    hasNodeId (addContentNode g c) (nodeId "content" c.path) = true := by
  unfold addContentNode
  split
  · rename_i h
    exact h
  · simp [hasNodeId, List.any_append]

theorem addLink_establishes (g : AttributionGraph) (l : Link) :
    hasLinkKey (addLink g l) l = true := by
  unfold addLink
  split
  · rename_i h
    exact h
  · simp [hasLinkKey, List.any_append, linkKeyMatches]

/-- The keys an event contributes to the graph: its contributor node
id, its content node id (when it adds a content node) and its link
key. -/
def eventKeysPresent (g : AttributionGraph) (e : BuilderEvent) : Prop :=
  hasNodeId g (nodeId "contributor" e.contributor.name) = true ∧
  (e.addsContent = true → hasNodeId g (nodeId "content" e.path) = true) ∧
  hasLinkKey g (eventLink e) = true

theorem hasNodeId_processEvent (g : AttributionGraph) (e : BuilderEvent)
    (i : String) (h : hasNodeId g i = true) :
    hasNodeId (processEvent g e) i = true := by
  unfold processEvent
  rw [hasNodeId_addLink]
  split
  · exact hasNodeId_addContentNode _ _ _ (hasNodeId_addContributorNode _ _ _ h)
  · exact hasNodeId_addContributorNode _ _ _ h

theorem hasLinkKey_processEvent (g : AttributionGraph) (e : BuilderEvent)
    (l : Link) (h : hasLinkKey g l = true) :
    hasLinkKey (processEvent g e) l = true := by
  unfold processEvent
  apply hasLinkKey_addLink
  split
  · rw [hasLinkKey_addContentNode, hasLinkKey_addContributorNode]
    exact h
  · rw [hasLinkKey_addContributorNode]
    exact h

theorem eventKeysPresent_processEvent (g : AttributionGraph) (e ev : BuilderEvent)
    (h : eventKeysPresent g e) : eventKeysPresent (processEvent g ev) e :=
  ⟨hasNodeId_processEvent _ _ _ h.1,
   fun ha => hasNodeId_processEvent _ _ _ (h.2.1 ha),
   hasLinkKey_processEvent _ _ _ h.2.2⟩

theorem processEvent_establishes (g : AttributionGraph) (e : BuilderEvent) :
    eventKeysPresent (processEvent g e) e := by
  refine ⟨?_, ?_, ?_⟩
  · unfold processEvent
    rw [hasNodeId_addLink]
    split
    · exact hasNodeId_addContentNode _ _ _ (addContributorNode_establishes g e.contributor)
    · exact addContributorNode_establishes g e.contributor
  · intro ha
    unfold processEvent
    rw [hasNodeId_addLink]
    rw [if_pos ha]
    exact addContentNode_establishes _ _
  · unfold processEvent
    exact addLink_establishes _ _

theorem eventKeysPresent_foldEvents (g : AttributionGraph)
    (evs : List BuilderEvent) (e : BuilderEvent) (h : eventKeysPresent g e) :
    eventKeysPresent (foldEvents g evs) e := by
  induction evs generalizing g with
  | nil => exact h
  | cons x rest ih => exact ih _ (eventKeysPresent_processEvent _ _ _ h)

theorem foldEvents_establishes (g : AttributionGraph) (evs : List BuilderEvent) :
    ∀ e ∈ evs, eventKeysPresent (foldEvents g evs) e := by
  induction evs generalizing g with
  | nil => intro e he; cases he
  | cons x rest ih =>
    intro e he
    rcases List.mem_cons.mp he with rfl | hmem
    · exact eventKeysPresent_foldEvents _ rest e (processEvent_establishes g e)
    · exact ih (processEvent g x) e hmem

theorem addContributorNode_of_present (g : AttributionGraph) (c : Contributor)
    (h : hasNodeId g (nodeId "contributor" c.name) = true) :
    addContributorNode g c = g := by
  unfold hasNodeId at h
  unfold addContributorNode
  rw [if_pos h]

theorem addContentNode_of_present (g : AttributionGraph) (c : ContentRef)
    (h : hasNodeId g (nodeId "content" c.path) = true) :
    addContentNode g c = g := by
  unfold hasNodeId at h
  unfold addContentNode
  rw [if_pos h]

theorem addLink_of_present (g : AttributionGraph) (l : Link)
    (h : hasLinkKey g l = true) : addLink g l = g := by
  unfold hasLinkKey at h
  unfold addLink
  rw [if_pos h]

theorem processEvent_of_present (g : AttributionGraph) (e : BuilderEvent)
    (h : eventKeysPresent g e) : processEvent g e = g := by
  unfold processEvent
  rw [addContributorNode_of_present g e.contributor h.1]
  split
  · rename_i ha
    rw [addContentNode_of_present g _ (h.2.1 ha)]
    exact addLink_of_present g _ h.2.2
  · exact addLink_of_present g _ h.2.2

theorem foldEvents_of_present (g : AttributionGraph) (evs : List BuilderEvent)
    (h : ∀ e ∈ evs, eventKeysPresent g e) : foldEvents g evs = g := by
  induction evs with
  | nil => rfl
  | cons x rest ih =>
    have hx : processEvent g x = g :=
      processEvent_of_present g x (h x (List.mem_cons_self x rest))
    show foldEvents (processEvent g x) rest = g
    rw [hx]
    exact ih fun e he => h e (List.mem_cons_of_mem x he)

theorem foldEvents_idem (g : AttributionGraph) (evs : List BuilderEvent) :
    foldEvents (foldEvents g evs) evs = foldEvents g evs :=
  foldEvents_of_present _ _ (foldEvents_establishes g evs)

theorem nodeWithMetrics_id (L : List Link) (n : Node) :
    (nodeWithMetrics L n).id = n.id := by
  unfold nodeWithMetrics
  split <;> rfl

theorem nodeWithMetrics_type (L : List Link) (n : Node) :
    (nodeWithMetrics L n).type = n.type := by
  unfold nodeWithMetrics
  split <;> rfl

theorem nodeWithMetrics_idem (L : List Link) (n : Node) :
    nodeWithMetrics L (nodeWithMetrics L n) = nodeWithMetrics L n := by
  obtain ⟨i, nm, em, gh, av, pa, ti, ty, co, br⟩ := n
  by_cases h : ty == "contributor" <;> simp [nodeWithMetrics, h]

theorem calcMetrics_fst_links (g : AttributionGraph) :
    (calculateAttributionMetrics g).1.links = g.links := rfl

theorem hasNodeId_calcMetrics (g : AttributionGraph) (i : String) :
    hasNodeId (calculateAttributionMetrics g).1 i = hasNodeId g i := by
  simp only [hasNodeId, calculateAttributionMetrics, List.any_map]
  congr 1
  funext n
  simp [Function.comp, nodeWithMetrics_id]

theorem eventKeysPresent_calcMetrics (g : AttributionGraph) (e : BuilderEvent)
    (h : eventKeysPresent g e) :
    eventKeysPresent (calculateAttributionMetrics g).1 e := by
  refine ⟨?_, fun ha => ?_, ?_⟩
  · rw [hasNodeId_calcMetrics]
    exact h.1
  · rw [hasNodeId_calcMetrics]
    exact h.2.1 ha
  · unfold hasLinkKey
    rw [calcMetrics_fst_links]
    exact h.2.2

theorem calcMetrics_idem (g : AttributionGraph) :
    calculateAttributionMetrics (calculateAttributionMetrics g).1 =
      calculateAttributionMetrics g := by
  have hcomp : nodeWithMetrics g.links ∘ nodeWithMetrics g.links =
      nodeWithMetrics g.links := funext fun n => nodeWithMetrics_idem g.links n
  simp only [calculateAttributionMetrics, List.map_map, hcomp, List.length_map]

/-- C2: the Attribution Graph Builder is idempotent.  A contributor
node whose id already exists is never added again, a link whose
`(source, target, type, timestamp)` key already exists is never added
again, and running the builder a second time on the same event list —
starting from the graph the first run persisted — returns that graph
unchanged, with identical per-node contribution counts and identical
density. -/
theorem attribution_builder_idempotent (g : AttributionGraph)
    (evs : List BuilderEvent) (c : Contributor) (l : Link) :
    (hasNodeId g (nodeId "contributor" c.name) = true → addContributorNode g c = g) ∧
    (hasLinkKey g l = true → addLink g l = g) ∧
    runAttributionBuilder (runAttributionBuilder g evs).1 evs =
      runAttributionBuilder g evs := by
  refine ⟨addContributorNode_of_present g c, addLink_of_present g l, ?_⟩
  unfold runAttributionBuilder
  have hkeys : ∀ e ∈ evs,
      eventKeysPresent (calculateAttributionMetrics (foldEvents g evs)).1 e :=
    fun e he => eventKeysPresent_calcMetrics _ _ (foldEvents_establishes g evs e he)
  rw [foldEvents_of_present _ _ hkeys]
  exact calcMetrics_idem _

/-- A one-contributor, one-link graph used for concrete checks. -/
def checkGraph : AttributionGraph :=
  { nodes := [{ id := "contributor:alice", name := some "alice", type := "contributor" }]
    links := [{ source := "contributor:alice", target := "content:index_md",
                type := "code", weight := 1, timestamp := "2020-01-01T00:00:00Z" }] }

/-- Concrete check of `attribution_builder_idempotent`: adding the
contributor `alice` to a graph already holding `contributor:alice`, or
re-adding an existing link key, leaves `checkGraph` unchanged. -/
theorem attribution_builder_idempotent_check :
    addContributorNode checkGraph { name := "alice" } = checkGraph ∧
    addLink checkGraph
      { source := "contributor:alice", target := "content:index_md",
        type := "code", weight := 5, timestamp := "2020-01-01T00:00:00Z" } = checkGraph :=
  ⟨(attribution_builder_idempotent checkGraph [] { name := "alice" }
      { source := "contributor:alice", target := "content:index_md",
        type := "code", weight := 5, timestamp := "2020-01-01T00:00:00Z" }).1
      (by decide),
   (attribution_builder_idempotent checkGraph [] { name := "alice" }
      { source := "contributor:alice", target := "content:index_md",
        type := "code", weight := 5, timestamp := "2020-01-01T00:00:00Z" }).2.1
      (by decide)⟩

/-- C9: the density computation of `calculateAttributionMetrics` is an
unguarded division.  On the empty graph it yields `NaN`; on a one-node
graph it yields `NaN` or `+Infinity`; for fewer than two nodes the
result is never finite; and only with at least two nodes is the
density a finite number. -/
theorem attribution_density_unguarded (g : AttributionGraph) :
    (g.nodes.length = 0 ∧ g.links.length = 0 →
      (calculateAttributionMetrics g).2.density = JsNum.nan) ∧
    (g.nodes.length = 1 →
      (calculateAttributionMetrics g).2.density = JsNum.nan ∨
      (calculateAttributionMetrics g).2.density = JsNum.posInf) ∧
    (g.nodes.length < 2 →
      ((calculateAttributionMetrics g).2.density).isFinite = false) ∧
    (2 ≤ g.nodes.length →
      ∃ q : ℚ, (calculateAttributionMetrics g).2.density = JsNum.num q) := by
  have hd : (calculateAttributionMetrics g).2.density =
      jsDensity g.nodes.length g.links.length := rfl
  refine ⟨?_, ?_, ?_, ?_⟩
  · rintro ⟨h0, hl⟩
    rw [hd, h0, hl]
    rfl
  · intro h1
    rw [hd, h1]
    by_cases hl : g.links.length = 0
    · left
      rw [hl]
      rfl
    · right
      simp [jsDensity, hl]
  · intro h2
    have : g.nodes.length = 0 ∨ g.nodes.length = 1 := by omega
    rcases this with h | h <;> rw [hd, h] <;>
      by_cases hl : g.links.length = 0 <;> simp [jsDensity, hl, JsNum.isFinite]
  · intro h2
    rw [hd]
    unfold jsDensity
    have h0 : ¬((g.nodes.length == 0) = true) := by
      simp only [beq_iff_eq]
      omega
    have h1 : ¬((g.nodes.length == 1) = true) := by
      simp only [beq_iff_eq]
      omega
    rw [if_neg h0, if_neg h1]
    exact ⟨_, rfl⟩

/-- A graph with a single contributor node and no links. -/
def oneNodeGraph : AttributionGraph :=
  { nodes := [{ id := "contributor:alice", name := some "alice", type := "contributor" }]
    links := [] }

/-- Concrete check of `attribution_density_unguarded`: the empty graph's
density is `NaN`, and a single-node graph's density is not finite. -/
theorem attribution_density_unguarded_check :
    (calculateAttributionMetrics { nodes := [], links := [] }).2.density = JsNum.nan ∧
    ((calculateAttributionMetrics oneNodeGraph).2.density).isFinite = false :=
  ⟨(attribution_density_unguarded { nodes := [], links := [] }).1 ⟨rfl, rfl⟩,
   (attribution_density_unguarded oneNodeGraph).2.2.1 (by decide)⟩

/-- C10: `nodeId` replaces every character outside `[a-zA-Z0-9]` by
`'_'`, so it is not injective: the distinct names `a.b` and `a-b` get
the same node id, and adding contributors with those two names to an
empty graph produces a single merged node. -/
theorem nodeId_collision_merges_nodes :
    nodeId "contributor" "a.b" = nodeId "contributor" "a-b" ∧
    "a.b" ≠ "a-b" ∧
    (addContributorNode
        (addContributorNode { nodes := [], links := [] } { name := "a.b" })
        { name := "a-b" }).nodes.length = 1 := by
  decide

/-! ## Residue classifier -/

/-- A residue instance (the `section` field of the script is named
`sectionName` here because `section` is a Lean keyword). -/
structure ResidueInstance where
  id : String
  classification : String
  description : String
  sectionName : String
  failureMode : String
  recursiveDepth : String
  valence : String
  detected : String
  reporter : String
  source : String
  status : String
deriving DecidableEq, Repr

/-- The persisted residue catalog. -/
structure ResidueCatalog where
  instances : List ResidueInstance
deriving DecidableEq, Repr

/-- The deduplication key of the catalog: equal `(description, section)`
pairs. -/
def sameResidueKey (a b : ResidueInstance) : Prop :=
  a.description = b.description ∧ a.sectionName = b.sectionName

instance (a b : ResidueInstance) : Decidable (sameResidueKey a b) :=
  inferInstanceAs (Decidable (_ ∧ _))

/-- `addResidueInstance` from `coherence.scripts.js`: push the instance
unless an existing entry has the same `(description, section)` pair. -/
def addResidueInstance (catalog : ResidueCatalog) (inst : ResidueInstance) :
    ResidueCatalog :=
  if catalog.instances.any fun existing =>
      existing.description == inst.description &&
        existing.sectionName == inst.sectionName
  then catalog
  else { instances := catalog.instances ++ [inst] }

/-- The catalog invariant: no two entries share a
`(description, section)` pair. -/
def residueKeysDistinct (catalog : ResidueCatalog) : Prop :=
  catalog.instances.Pairwise fun a b => ¬ sameResidueKey a b

/-- C5: `addResidueInstance` preserves the invariant that no two
catalog entries have equal `(description, section)` pairs, and an
instance whose pair is already in the catalog is not stored a second
time — so running the classifier twice on identical text adds no
duplicate entries. -/
theorem addResidueInstance_preserves_dedup (catalog : ResidueCatalog)
    (inst : ResidueInstance) (hinv : residueKeysDistinct catalog) :
    residueKeysDistinct (addResidueInstance catalog inst) ∧
    ((∃ ex ∈ catalog.instances, sameResidueKey ex inst) →
      addResidueInstance catalog inst = catalog) := by
  constructor
  · unfold addResidueInstance
    split
    · exact hinv
    · rename_i hnone
      unfold residueKeysDistinct at hinv ⊢
      rw [List.pairwise_append]
      refine ⟨hinv, List.pairwise_singleton _ _, ?_⟩
      intro x hx y hy
      rw [List.mem_singleton] at hy
      subst hy
      intro hkey
      apply hnone
      rw [List.any_eq_true]
      refine ⟨x, hx, ?_⟩
      rw [sameResidueKey] at hkey
      simp [hkey.1, hkey.2]
  · rintro ⟨ex, hmem, hkey⟩
    unfold addResidueInstance
    have hcond : (catalog.instances.any fun existing =>
        existing.description == inst.description &&
          existing.sectionName == inst.sectionName) = true := by
      rw [List.any_eq_true]
      refine ⟨ex, hmem, ?_⟩
      rw [sameResidueKey] at hkey
      simp [hkey.1, hkey.2]
    rw [if_pos hcond]

/-- A concrete residue instance for checks. -/
def checkResidue : ResidueInstance :=
  { id := "residue-inline-1", classification := "Token Hesitation",
    description := "unclear passage", sectionName := "index.md",
    failureMode := "Explicit marker",
    recursiveDepth := "Surface (linguistic/presentational)",
    valence := "Positive (reveals important boundary)",
    detected := "2020-01-01T00:00:00Z", reporter := "author",
    source := "inline", status := "active" }

/-- Concrete check of `addResidueInstance_preserves_dedup`: re-adding an
instance with a `(description, section)` pair already in the catalog
keeps the invariant and leaves the catalog unchanged. -/
theorem addResidueInstance_preserves_dedup_check :
    residueKeysDistinct (addResidueInstance { instances := [checkResidue] } checkResidue) ∧
    addResidueInstance { instances := [checkResidue] } checkResidue =
      { instances := [checkResidue] } :=
  have h := addResidueInstance_preserves_dedup { instances := [checkResidue] }
    checkResidue (List.pairwise_singleton _ _)
  ⟨h.1, h.2 ⟨checkResidue, List.mem_singleton.mpr rfl, rfl, rfl⟩⟩

/-! ## Trend reporter: coherence history -/

/-- One snapshot appended to the coherence history.  The timestamp is
the epoch-millisecond value that `new Date(entry.timestamp)` yields for
the stored ISO string; the sort comparator subtracts exactly these
values. -/
structure HistoryEntry where
  timestamp : Int
  overallScore : ℚ
  components : CoherenceComponents
deriving DecidableEq, Repr

/-- The persisted coherence history (the wall-clock
`metadata.lastUpdated` stamp is outside the model). -/
structure CoherenceHistory where
  entries : List HistoryEntry
  entryCount : Nat
deriving DecidableEq, Repr

/-- The order of the history sort comparator
`(a, b) => new Date(a.timestamp) - new Date(b.timestamp)`. -/
def byTimestamp (a b : HistoryEntry) : Prop :=
  a.timestamp ≤ b.timestamp

instance : DecidableRel byTimestamp :=
  fun a b => inferInstanceAs (Decidable (a.timestamp ≤ b.timestamp))

instance : IsTotal HistoryEntry byTimestamp :=
  ⟨fun a b => Int.le_total a.timestamp b.timestamp⟩

instance : IsTrans HistoryEntry byTimestamp :=
  ⟨fun _ _ _ h h' => le_trans h h'⟩

/-- `addToCoherenceHistory` from `coherence.scripts.js`: push the new
entry, sort the entries ascending by timestamp (`Array.prototype.sort`
with a consistent numeric comparator produces a sorted permutation,
modelled by insertion sort), and update `entryCount`. -/
def addToCoherenceHistory (history : CoherenceHistory) (entry : HistoryEntry) :
    CoherenceHistory :=
  { entries := List.insertionSort byTimestamp (history.entries ++ [entry])
    entryCount := (List.insertionSort byTimestamp (history.entries ++ [entry])).length }

/-- C8: after every append, the history entries are sorted ascending by
timestamp — for every prior state, including unsorted ones — and are a
permutation of the old entries plus the new one, with the entry count
incremented. -/
theorem history_sorted_after_append (history : CoherenceHistory)
    (entry : HistoryEntry) :
    List.Sorted byTimestamp (addToCoherenceHistory history entry).entries ∧
    (addToCoherenceHistory history entry).entries.Perm
      (history.entries ++ [entry]) ∧
    (addToCoherenceHistory history entry).entryCount =
      history.entries.length + 1 := by
  refine ⟨List.sorted_insertionSort _ _, List.perm_insertionSort _ _, ?_⟩
  show (List.insertionSort byTimestamp (history.entries ++ [entry])).length =
    history.entries.length + 1
  rw [(List.perm_insertionSort byTimestamp (history.entries ++ [entry])).length_eq]
  simp

end RecursiveDistill
